import Mathlib

/-!
Shallow embedding of the `eda-cli` data-quality engine (Dataset Summarizer,
Missingness Analyzer, Outlier Heuristic, Quality Flag Engine,
Correlation Reporter) and of the HTTP-layer helpers `get_head` / `get_sample`
from `src/eda_cli/api.py`, together with theorems settling the specification
claims.  The engine module itself (`eda_cli/core.py`) is not part of the
available sources, so its operations are modelled from the specification,
cross-checked against the repository's own test-suite expectations
(`tests/test_core.py`).
-/

namespace EdaCli

/-- A table cell value: a (rational) number or a piece of text.  Modelled from
the spec: values are "numeric, text, or absent/missing marker"; the missing
marker is `Option.none` at the `Cell` level. -/
inductive Value where
  | num (q : ℚ)
  | txt (s : String)
deriving DecidableEq

/-- A cell is a value or the missing marker. -/
abbrev Cell := Option Value

/-- A column is an ordered sequence of cells. -/
abbrev Column := List Cell

/-- A table is an ordered sequence of named columns (column-major). -/
abbrev Table := List (String × Column)

/-- Number of rows: the length of the first column (0 for a table with no
columns).  Under `Wf` every column has this length. -/
def nRows (t : Table) : Nat :=
  match t with
  | [] => 0
  | p :: _ => p.2.length

/-- Table well-formedness: all columns have equal length and column names are
distinct (spec §3 invariant; names key the derived mappings). -/
def Wf (t : Table) : Prop :=
  (∀ p ∈ t, p.2.length = nRows t) ∧ (t.map Prod.fst).Nodup

/-- The non-missing numeric values of a column, in order. -/
def numsOf (col : Column) : List ℚ :=
  col.filterMap (fun c =>
    match c with
    | some (Value.num q) => some q
    | _ => none)

/-- Number of missing entries of a column. -/
def missingCount (col : Column) : Nat :=
  (col.filter (fun c => c.isNone)).length

/-- A column is numeric when all its non-missing values are numbers
(spec §4.1). -/
def isNumericCol (col : Column) : Bool :=
  col.all (fun c =>
    match c with
    | some (Value.txt _) => false
    | _ => true)

/-- First-occurrence deduplication, accumulator form (structural so that the
kernel can evaluate it). -/
def dedupFirstAux {α : Type} [DecidableEq α] (seen : List α) : List α → List α
  | [] => []
  | x :: xs =>
      if x ∈ seen then dedupFirstAux seen xs
      else x :: dedupFirstAux (x :: seen) xs

/-- Distinct values of a list, keeping the first occurrence of each, in
order. -/
def dedupFirst {α : Type} [DecidableEq α] (l : List α) : List α :=
  dedupFirstAux [] l

/-- Mean of a list of rationals (0 for the empty list, via division by 0). -/
def qmean (xs : List ℚ) : ℚ := xs.sum / (xs.length : ℚ)

/-- Sum of squared deviations from the mean. -/
def sqDevSum (xs : List ℚ) : ℚ :=
  ((xs.map (fun x => (x - qmean xs) ^ 2)).sum)

/-- Sample variance (ddof = 1, the documented convention, matching the
test-suite's expected outliers); 0 when fewer than two values. -/
def svar (xs : List ℚ) : ℚ :=
  if xs.length ≤ 1 then 0 else sqDevSum xs / ((xs.length : ℚ) - 1)

/-- Modelled from the spec (§4.4, Outlier Heuristic; `eda_cli/core.py` is not
in the sources): a value `v` is flagged "toobig" when `v > mean + k*std` and
"toosmall" when `v < mean - k*std`; only columns with positive variance
produce flags, and each distinct offending value is reported once.  To keep
the definition kernel-evaluable over `ℚ` the comparison with `k * √var` is
expressed by the equivalent squared form (for `k ≥ 0`):
`v > mean + k*√var ↔ v > mean ∧ (v - mean)^2 > k^2 * var`. -/
def outlierFlags (name : String) (xs : List ℚ) (k : ℚ) :
    List (String × ℚ × String) :=
  if 0 < svar xs then
    (dedupFirst xs).filterMap (fun v =>
      if qmean xs < v ∧ k ^ 2 * svar xs < (v - qmean xs) ^ 2 then
        some (name, v, "toobig")
      else if v < qmean xs ∧ k ^ 2 * svar xs < (qmean xs - v) ^ 2 then
        some (name, v, "toosmall")
      else none)
  else []

/-- Column kind (spec §3): numeric, categorical or other. -/
inductive ColKind where
  | numeric
  | categorical
  | other
deriving DecidableEq

/-- Modelled from the spec (§3, §4.1; `eda_cli/core.py` is not in the
sources): per-column profile.  `numvals` retains the column's numeric values,
which the Quality Flag Engine's outlier pass consumes (spec §4.4 takes "a
numeric column's values and its mean/std (from the profile)").  Order
statistics (min/max/quartiles) are not consumed by any derived structure and
are omitted. -/
structure ColumnProfile where
  name : String
  kind : ColKind
  count : Nat
  missing_count : Nat
  distinct_count : Nat
  mean : Option ℚ
  variance : Option ℚ
  numvals : List ℚ
deriving DecidableEq

/-- Modelled from the spec (§4.1): profile one column. -/
def profileColumn (name : String) (col : Column) : ColumnProfile :=
  let xs := numsOf col
  { name := name
    kind := if isNumericCol col then ColKind.numeric else ColKind.categorical
    count := (col.filter (fun c => c.isSome)).length
    missing_count := missingCount col
    distinct_count := (dedupFirst (col.filterMap id)).length
    mean := if xs.length = 0 then none else some (qmean xs)
    variance := if xs.length ≤ 1 then none else some (svar xs)
    numvals := xs }

/-- Dataset summary (spec §3). -/
structure DatasetSummary where
  n_rows : Nat
  n_cols : Nat
  columns : List ColumnProfile
deriving DecidableEq

/-- Modelled from the spec (§4.2, Dataset Summarizer; `eda_cli/core.py` is
not in the sources): one profile per column, in table order. -/
def summarize_dataset (t : Table) : DatasetSummary :=
  { n_rows := nRows t
    n_cols := t.length
    columns := t.map (fun p => profileColumn p.1 p.2) }

/-- One row of the MissingTable (spec §3). -/
structure MissingEntry where
  name : String
  missing_count : Nat
  missing_share : ℚ
deriving DecidableEq

/-- Per-column missing share: `missing_count / n_rows`, defined as 0 when
`n_rows = 0` (spec §4.3). -/
def missingShare (t : Table) (col : Column) : ℚ :=
  if nRows t = 0 then 0 else (missingCount col : ℚ) / (nRows t : ℚ)

/-- Modelled from the spec (§4.3, Missingness Analyzer; `eda_cli/core.py` is
not in the sources). -/
def missing_table (t : Table) : List MissingEntry :=
  t.map (fun p => ⟨p.1, missingCount p.2, missingShare t p.2⟩)

/-- Quality flags (spec §3). -/
structure QualityFlags where
  how_many_empties : List String
  too_many_missing : Bool
  may_have_outliers : List (String × ℚ × String)
  quality_score : ℚ
deriving DecidableEq

/-- Whether two name lists describe the same column set. -/
def sameColumnSet (l1 l2 : List String) : Bool :=
  l1.all (fun a => decide (a ∈ l2)) && l2.all (fun a => decide (a ∈ l1))

/-- Overall dataset missing share: total missing cells / total cells
(0 when there are no cells). -/
def overallMissingShare (miss : List MissingEntry) (n_rows n_cols : Nat) : ℚ :=
  if n_rows * n_cols = 0 then 0
  else (((miss.map MissingEntry.missing_count).sum : ℕ) : ℚ) /
    ((n_rows * n_cols : ℕ) : ℚ)

/-- Outlier penalty term of the quality score: `f / (f + 1)` for `f` flagged
outliers — 0 exactly when no outliers are flagged, strictly increasing in
`f`, always `< 1`. -/
def outlierPenalty (f : Nat) : ℚ := (f : ℚ) / ((f : ℚ) + 1)

/-- Message of the column-set validation failure. -/
def validationMsg : String :=
  "DatasetSummary and MissingTable reference different column sets"

/-- Modelled from the spec (§4.5, Quality Flag Engine; `eda_cli/core.py` is
not in the sources): combines summary, missing table and the two thresholds.
Two spec-resolution choices, both recorded in the claim results:
(1) `too_many_missing` is computed from the per-column shares (true when some
column exceeds the threshold) — the spec's "overall share" definition
contradicts the spec's own §8 scenario and the repository test, which demand
`True` for a table whose overall share is 0.1 against threshold 0.3;
(2) the exact `quality_score` weighting is an implementation choice (spec §9);
the formula `1 - (overall_missing_share + f/(f+1))/2` is used, which satisfies
the §4.5 contract (range `[0,1]`, value 1 iff no missing and no outliers,
strictly monotone in missingness and in the number of outliers). -/
def compute_quality_flags (s : DatasetSummary) (miss : List MissingEntry)
    (outlier_k missing_share_threshold : ℚ) : Except String QualityFlags :=
  if sameColumnSet (s.columns.map ColumnProfile.name)
      (miss.map MissingEntry.name) then
    let outs := (s.columns.map (fun p =>
      if p.kind = ColKind.numeric then outlierFlags p.name p.numvals outlier_k
      else [])).flatten
    Except.ok
      { how_many_empties :=
          (miss.filter (fun e =>
            decide (missing_share_threshold < e.missing_share))).map
            MissingEntry.name
        too_many_missing :=
          miss.any (fun e => decide (missing_share_threshold < e.missing_share))
        may_have_outliers := outs
        quality_score :=
          1 - (overallMissingShare miss s.n_rows s.n_cols +
            outlierPenalty outs.length) / 2 }
  else Except.error validationMsg

/-- Shorthand: a column of present numeric cells. -/
def natCol (xs : List ℚ) : Column := xs.map (fun q => some (Value.num q))

/-- The `age` values of the §8 scenario table. -/
def ageValsQ : List ℚ := [25, 30, 35, 28, 32, 150, 29, 31, 200, 27]

/-- The `salary` values of the §8 scenario table. -/
def salaryValsQ : List ℚ :=
  [50000, 55000, 60000, 52000, 58000, 1000000, 53000, 56000, 1200000, 51000]

/-- The `score` values of the §8 scenario table. -/
def scoreValsQ : List ℚ := [75, 80, 85, 78, 82, 95, 77, 81, 200, 76]

/-- The `height` values of the §8 scenario table. -/
def heightValsQ : List ℚ := [170, 175, 180, 172, 178, 250, 171, 176, 300, 169]

/-- The `experience` values of the §8 scenario table. -/
def expValsQ : List ℚ := [2, 5, 3, 1, 4, 50, 2, 3, 60, 1]

/-- The `department` cells of the §8 scenario table. -/
def deptCells : Column :=
  [some (Value.txt "IT"), some (Value.txt "HR"), some (Value.txt "IT"),
    some (Value.txt "Sales"), some (Value.txt "HR"), some (Value.txt "IT"),
    some (Value.txt "Sales"), some (Value.txt "IT"), some (Value.txt "HR"),
    some (Value.txt "Sales")]

/-- The `sex` cells of the §8 scenario table: 8 of 10 missing, as the spec's
scenario states ("sex mostly missing (8/10 missing)").  The repository test's
literal column has a third present value ("f" twice), i.e. 7 of 10 missing;
with either column the per-column share exceeds 0.3 while the overall share
(8/80 resp. 7/80) does not, so every flag below is the same for both. -/
def sexCells : Column :=
  [none, none, none, none, some (Value.txt "m"), some (Value.txt "f"),
    none, none, none, none]

/-- The `city` cells of the §8 scenario table. -/
def cityCells : Column := List.replicate 10 (some (Value.txt "Moscow"))

/-- The §8 scenario table (also `_another_df` of `tests/test_core.py`):
8 columns, 10 rows, `sex` mostly missing. -/
def scenarioTable : Table :=
  [ ("age", natCol ageValsQ)
  , ("salary", natCol salaryValsQ)
  , ("score", natCol scoreValsQ)
  , ("height", natCol heightValsQ)
  , ("department", deptCells)
  , ("experience", natCol expValsQ)
  , ("sex", sexCells)
  , ("city", cityCells)
  ]

/-- The engine's result on the §8 scenario, with `outlier_k = 2.5` and
`missing_share_threshold = 0.3`. -/
def scenarioFlags : Except String QualityFlags :=
  compute_quality_flags (summarize_dataset scenarioTable)
    (missing_table scenarioTable) (5 / 2) (3 / 10)

/-- The expected quality flags of the §8 scenario. -/
def scenarioQF : QualityFlags :=
  { how_many_empties := ["sex"]
    too_many_missing := true
    may_have_outliers := [("score", 200, "toobig")]
    quality_score := 7 / 10 }

/-- The numeric columns of a table, in table order (spec §4.6). -/
def numericCols (t : Table) : List (String × Column) :=
  t.filter (fun p => isNumericCol p.2)

/-- Row-paired numeric values of two columns: rows where both cells are
numbers (pairwise deletion of missing values). -/
def pairedNums (c1 c2 : Column) : List (ℚ × ℚ) :=
  (c1.zip c2).filterMap (fun p =>
    match p with
    | (some (Value.num a), some (Value.num b)) => some (a, b)
    | _ => none)

/-- Sum of products of deviations from the means (the covariance
numerator). -/
def covSum (ps : List (ℚ × ℚ)) : ℚ :=
  ((ps.map (fun p =>
    (p.1 - qmean (ps.map Prod.fst)) * (p.2 - qmean (ps.map Prod.snd)))).sum)

/-- Modelled from the spec (§4.6; `eda_cli/core.py` is not in the sources):
Pearson correlation of two columns over their row-paired numeric values. -/
noncomputable def pearson (c1 c2 : Column) : ℝ :=
  ((covSum (pairedNums c1 c2) : ℚ) : ℝ) /
    Real.sqrt (((sqDevSum ((pairedNums c1 c2).map Prod.fst) : ℚ) : ℝ) *
      ((sqDevSum ((pairedNums c1 c2).map Prod.snd) : ℚ) : ℝ))

/-- Modelled from the spec (§4.6; `eda_cli/core.py` is not in the sources):
pairwise Pearson correlation among the numeric columns, keyed by column name;
the empty matrix when fewer than two numeric columns exist. -/
noncomputable def correlation_matrix (t : Table) :
    List (String × List (String × ℝ)) :=
  let nc := numericCols t
  if nc.length < 2 then []
  else nc.map (fun a => (a.1, nc.map (fun b => (b.1, pearson a.2 b.2))))

/-- First-match association-list lookup. -/
def alookup {β : Type} (k : String) : List (String × β) → Option β
  | [] => none
  | p :: xs => if p.1 = k then some p.2 else alookup k xs

/-- Entry of a name-keyed matrix. -/
noncomputable def corrEntry (M : List (String × List (String × ℝ)))
    (i j : String) : Option ℝ :=
  (alookup i M).bind (fun row => alookup j row)

/-- One (record-oriented) row of a table. -/
abbrev Row := List (String × Cell)

/-- Row `i` of a table. -/
def rowAt (t : Table) (i : Nat) : Row :=
  t.map (fun p => (p.1, p.2.getD i none))

/-- All rows of a table, in order. -/
def tableRows (t : Table) : List Row :=
  (List.range (nRows t)).map (rowAt t)

/-- Response of the `/head` endpoint (`api.py`, `get_head`). -/
structure HeadResponse where
  count : Nat
  total_rows : Nat
  requested_n : Int
  data : List Row
deriving DecidableEq

/-- The parameter-validation message of `api.py` (`get_head` /
`get_sample`). -/
def paramMsg : String := "Параметр n должен быть положительным числом"

/-- `get_head` of `api.py`: rejects `n <= 0`, otherwise returns the first
`n` rows (`df.head(n)`). -/
def get_head (t : Table) (n : Int) : Except String HeadResponse :=
  if n ≤ 0 then Except.error paramMsg
  else
    let rows := tableRows t
    let h := rows.take n.toNat
    Except.ok
      { count := h.length
        total_rows := rows.length
        requested_n := n
        data := h }

/-- Response of the `/sample` endpoint (`api.py`, `get_sample`). -/
structure SampleResponse where
  count : Nat
  total_rows : Nat
  requested_n : Int
  random_state : Int
  data : List Row
deriving DecidableEq

/-- Model of pandas `df.sample(n=n, random_state=...)` for `n ≤ len(df)`:
some `n` of the rows.  The pseudo-random row choice is external-library
behaviour; only the returned row count is observed by the endpoint's
`count`, so the selection is modelled as the first `n` rows. -/
def sampleRows (rows : List Row) (n : Nat) : List Row := rows.take n

/-- `get_sample` of `api.py`: rejects `n <= 0`, clamps `n` to the row count
(`if n > len(df): n = len(df)`), samples, and echoes the (clamped) `n` as
`requested_n` — mirroring the source, where the clamp reassigns `n` before
the response is built. -/
def get_sample (t : Table) (n : Int) (random_state : Int) :
    Except String SampleResponse :=
  if n ≤ 0 then Except.error paramMsg
  else
    let rows := tableRows t
    let n2 : Int := if (rows.length : Int) < n then (rows.length : Int) else n
    let s := sampleRows rows n2.toNat
    Except.ok
      { count := s.length
        total_rows := rows.length
        requested_n := n2
        random_state := random_state
        data := s }

/-- The outlier pass of the Quality Flag Engine over a whole table: the
concatenation of `outlierFlags` over the numeric columns, in table order
(the `outs` term of `compute_quality_flags` on `summarize_dataset t`). -/
def tableOutliers (t : Table) (k : ℚ) : List (String × ℚ × String) :=
  ((summarize_dataset t).columns.map (fun p =>
    if p.kind = ColKind.numeric then outlierFlags p.name p.numvals k
    else [])).flatten

/-- A two-row, one-column table with no missing values (used as a concrete
instance). -/
def tinyTable : Table := [("a", [some (Value.num 1), some (Value.num 2)])]

/-- A two-row, one-column table with one missing value (used as a concrete
instance). -/
def tinyT1 : Table := [("a", [none, some (Value.num 1)])]

/-- The quality flags of `tinyT1` with `outlier_k = 1`,
`missing_share_threshold = 3/10`. -/
def tinyG1 : QualityFlags :=
  { how_many_empties := ["a"]
    too_many_missing := true
    may_have_outliers := []
    quality_score := 3 / 4 }

/-- The quality flags of `tinyTable` with `outlier_k = 1`,
`missing_share_threshold = 3/10`. -/
def tinyG2 : QualityFlags :=
  { how_many_empties := []
    too_many_missing := false
    may_have_outliers := []
    quality_score := 1 }

/-- The response of `get_sample tinyTable 5 42`: both rows, with the clamped
`n` echoed as `requested_n`. -/
def tinySampleResp : SampleResponse :=
  { count := 2
    total_rows := 2
    requested_n := 2
    random_state := 42
    data := tableRows tinyTable }

/-- A table with two numeric columns of nonzero variance (used as a concrete
instance for the correlation matrix). -/
def corrT : Table := [("a", natCol [0, 1, 2]), ("b", natCol [0, 2, 4])]

end EdaCli

deriving instance DecidableEq for Except

namespace EdaCli

/-! ### Helper lemmas: first-occurrence deduplication -/

theorem mem_dedupFirstAux {α : Type} [DecidableEq α] (v : α) (l : List α) :
    ∀ seen : List α, v ∈ dedupFirstAux seen l ↔ v ∈ l ∧ v ∉ seen := by
  induction l with
  | nil => intro seen; simp [dedupFirstAux]
  | cons x xs ih =>
      intro seen
      by_cases hx : x ∈ seen
      · rw [dedupFirstAux, if_pos hx, ih seen]
        constructor
        · rintro ⟨h1, h2⟩
          exact ⟨List.mem_cons_of_mem _ h1, h2⟩
        · rintro ⟨h1, h2⟩
          rcases List.mem_cons.1 h1 with rfl | h
          · exact absurd hx h2
          · exact ⟨h, h2⟩
      · rw [dedupFirstAux, if_neg hx]
        constructor
        · intro h
          rcases List.mem_cons.1 h with rfl | h
          · exact ⟨List.mem_cons_self _ _, hx⟩
          · obtain ⟨h1, h2⟩ := (ih (x :: seen)).1 h
            exact ⟨List.mem_cons_of_mem _ h1,
              fun hv => h2 (List.mem_cons_of_mem _ hv)⟩
        · rintro ⟨h1, h2⟩
          by_cases hvx : v = x
          · subst hvx; exact List.mem_cons_self _ _
          · rcases List.mem_cons.1 h1 with h | h
            · exact absurd h hvx
            · exact List.mem_cons_of_mem _ ((ih (x :: seen)).2
                ⟨h, fun hv => (List.mem_cons.1 hv).elim hvx h2⟩)

theorem mem_dedupFirst {α : Type} [DecidableEq α] {v : α} {l : List α} :
    v ∈ dedupFirst l ↔ v ∈ l := by
  simp [dedupFirst, mem_dedupFirstAux]

theorem nodup_dedupFirstAux {α : Type} [DecidableEq α] (l : List α) :
    ∀ seen : List α, (dedupFirstAux seen l).Nodup := by
  induction l with
  | nil => intro seen; simp [dedupFirstAux]
  | cons x xs ih =>
      intro seen
      by_cases hx : x ∈ seen
      · rw [dedupFirstAux, if_pos hx]; exact ih seen
      · rw [dedupFirstAux, if_neg hx]
        refine List.nodup_cons.2 ⟨fun hmem => ?_, ih (x :: seen)⟩
        exact ((mem_dedupFirstAux x xs (x :: seen)).1 hmem).2
          (List.mem_cons_self _ _)

theorem nodup_dedupFirst {α : Type} [DecidableEq α] (l : List α) :
    (dedupFirst l).Nodup :=
  nodup_dedupFirstAux l []

end EdaCli

namespace EdaCli

/-! ### Helper lemmas: evaluating the §8 scenario columns -/

theorem numsOf_age : numsOf (natCol ageValsQ) = ageValsQ := rfl

theorem numsOf_salary : numsOf (natCol salaryValsQ) = salaryValsQ := rfl

theorem numsOf_score : numsOf (natCol scoreValsQ) = scoreValsQ := rfl

theorem numsOf_height : numsOf (natCol heightValsQ) = heightValsQ := rfl

theorem numsOf_exp : numsOf (natCol expValsQ) = expValsQ := rfl

theorem qmean_age : qmean ageValsQ = 587 / 10 := by
  norm_num [qmean, ageValsQ]

theorem qmean_salary : qmean salaryValsQ = 263500 := by
  norm_num [qmean, salaryValsQ]

theorem qmean_score : qmean scoreValsQ = 929 / 10 := by
  norm_num [qmean, scoreValsQ]

theorem qmean_height : qmean heightValsQ = 1941 / 10 := by
  norm_num [qmean, heightValsQ]

theorem qmean_exp : qmean expValsQ = 131 / 10 := by
  norm_num [qmean, expValsQ]

theorem svar_age : svar ageValsQ = 117107 / 30 := by
  simp only [svar, sqDevSum, qmean_age]
  norm_num [ageValsQ]

theorem svar_salary : svar salaryValsQ = 589805500000 / 3 := by
  simp only [svar, sqDevSum, qmean_salary]
  norm_num [salaryValsQ]

theorem svar_score : svar scoreValsQ = 43483 / 30 := by
  simp only [svar, sqDevSum, qmean_score]
  norm_num [scoreValsQ]

theorem svar_height : svar heightValsQ = 177229 / 90 := by
  simp only [svar, sqDevSum, qmean_height]
  norm_num [heightValsQ]

theorem svar_exp : svar expValsQ = 14843 / 30 := by
  simp only [svar, sqDevSum, qmean_exp]
  norm_num [expValsQ]

end EdaCli

namespace EdaCli

theorem dedup_age : dedupFirst ageValsQ = ageValsQ := by
  norm_num [dedupFirst, dedupFirstAux, ageValsQ]

theorem dedup_salary : dedupFirst salaryValsQ = salaryValsQ := by
  norm_num [dedupFirst, dedupFirstAux, salaryValsQ]

theorem dedup_score : dedupFirst scoreValsQ = scoreValsQ := by
  norm_num [dedupFirst, dedupFirstAux, scoreValsQ]

theorem dedup_height : dedupFirst heightValsQ = heightValsQ := by
  norm_num [dedupFirst, dedupFirstAux, heightValsQ]

theorem dedup_exp : dedupFirst expValsQ = [2, 5, 3, 1, 4, 50, 60] := by
  norm_num [dedupFirst, dedupFirstAux, expValsQ]

end EdaCli

namespace EdaCli

theorem outliers_age : outlierFlags "age" ageValsQ (5 / 2) = [] := by
  simp only [outlierFlags, svar_age, qmean_age, dedup_age]
  norm_num [ageValsQ, List.filterMap_cons]

theorem outliers_salary : outlierFlags "salary" salaryValsQ (5 / 2) = [] := by
  simp only [outlierFlags, svar_salary, qmean_salary, dedup_salary]
  norm_num [salaryValsQ, List.filterMap_cons]

theorem outliers_score :
    outlierFlags "score" scoreValsQ (5 / 2) = [("score", 200, "toobig")] := by
  simp only [outlierFlags, svar_score, qmean_score, dedup_score]
  norm_num [scoreValsQ, List.filterMap_cons]

theorem outliers_height : outlierFlags "height" heightValsQ (5 / 2) = [] := by
  simp only [outlierFlags, svar_height, qmean_height, dedup_height]
  norm_num [heightValsQ, List.filterMap_cons]

theorem outliers_exp :
    outlierFlags "experience" expValsQ (5 / 2) = [] := by
  simp only [outlierFlags, svar_exp, qmean_exp, dedup_exp]
  norm_num [List.filterMap_cons]

end EdaCli

namespace EdaCli

theorem isNum_age : isNumericCol (natCol ageValsQ) = true := rfl

theorem isNum_salary : isNumericCol (natCol salaryValsQ) = true := rfl

theorem isNum_score : isNumericCol (natCol scoreValsQ) = true := rfl

theorem isNum_height : isNumericCol (natCol heightValsQ) = true := rfl

theorem isNum_exp : isNumericCol (natCol expValsQ) = true := rfl

theorem isNum_dept : isNumericCol deptCells = false := rfl

theorem isNum_sex : isNumericCol sexCells = false := rfl

theorem isNum_city : isNumericCol cityCells = false := rfl

theorem mc_age : missingCount (natCol ageValsQ) = 0 := rfl

theorem mc_salary : missingCount (natCol salaryValsQ) = 0 := rfl

theorem mc_score : missingCount (natCol scoreValsQ) = 0 := rfl

theorem mc_height : missingCount (natCol heightValsQ) = 0 := rfl

theorem mc_exp : missingCount (natCol expValsQ) = 0 := rfl

theorem mc_dept : missingCount deptCells = 0 := rfl

theorem mc_sex : missingCount sexCells = 8 := by decide

theorem mc_city : missingCount cityCells = 0 := rfl

theorem nRows_scenario : nRows scenarioTable = 10 := rfl

theorem nRows_scenario_lit :
    nRows [("age", natCol ageValsQ), ("salary", natCol salaryValsQ),
      ("score", natCol scoreValsQ), ("height", natCol heightValsQ),
      ("department", deptCells), ("experience", natCol expValsQ),
      ("sex", sexCells), ("city", cityCells)] = 10 := rfl

theorem cat_ne_num : ColKind.categorical ≠ ColKind.numeric := by decide

/-- Full evaluation of the quality flags on the §8 scenario: exactly the
outputs the repository test `test_outliners_in` asserts, plus the induced
quality score. -/
theorem scenario_flags_eq : scenarioFlags = Except.ok scenarioQF := by
  simp only [scenarioFlags, compute_quality_flags, summarize_dataset,
    missing_table, scenarioTable, List.map_cons, List.map_nil, profileColumn,
    numsOf_age, numsOf_salary, numsOf_score, numsOf_height, numsOf_exp,
    isNum_age, isNum_salary, isNum_score, isNum_height, isNum_exp,
    isNum_dept, isNum_sex, isNum_city, mc_age, mc_salary, mc_score,
    mc_height, mc_exp, mc_dept, mc_sex, mc_city, nRows_scenario_lit,
    missingShare, sameColumnSet, overallMissingShare, outlierPenalty,
    outliers_age, outliers_salary, outliers_score, outliers_height,
    outliers_exp, scenarioQF]
  norm_num [List.all_cons, List.any_cons, List.filter_cons,
    List.flatten_cons, List.filterMap_cons, decide_eq_true_eq, cat_ne_num]

end EdaCli

namespace EdaCli

/-! ### Helper lemmas: the Quality Flag Engine on a table -/

theorem summarize_names (t : Table) :
    (summarize_dataset t).columns.map ColumnProfile.name = t.map Prod.fst := by
  simp [summarize_dataset, profileColumn, List.map_map, Function.comp]

theorem missing_names (t : Table) :
    (missing_table t).map MissingEntry.name = t.map Prod.fst := by
  simp [missing_table, List.map_map, Function.comp]

theorem sameColumnSet_refl (l : List String) : sameColumnSet l l = true := by
  simp [sameColumnSet, List.all_eq_true]

/-- Evaluation of the Quality Flag Engine on the summary and missing table of
one well-named table: validation passes and each flag has its defining
value. -/
theorem cqf_eval (t : Table) (k thr : ℚ) :
    compute_quality_flags (summarize_dataset t) (missing_table t) k thr =
      Except.ok
        { how_many_empties := ((missing_table t).filter
            (fun e => decide (thr < e.missing_share))).map MissingEntry.name
          too_many_missing := (missing_table t).any
            (fun e => decide (thr < e.missing_share))
          may_have_outliers := tableOutliers t k
          quality_score := 1 - (overallMissingShare (missing_table t)
            (nRows t) t.length +
            outlierPenalty (tableOutliers t k).length) / 2 } := by
  have hc : sameColumnSet ((summarize_dataset t).columns.map ColumnProfile.name)
      ((missing_table t).map MissingEntry.name) = true := by
    rw [summarize_names, ← missing_names, sameColumnSet_refl]
  simp only [compute_quality_flags, tableOutliers, hc, if_true]
  simp [summarize_dataset]

end EdaCli

namespace EdaCli

/-- Evaluation of the engine on the one-missing-value table `tinyT1`. -/
theorem tiny1_eval :
    compute_quality_flags (summarize_dataset tinyT1) (missing_table tinyT1)
      1 (3 / 10) = Except.ok tinyG1 := by
  norm_num [compute_quality_flags, summarize_dataset, missing_table, tinyT1,
    profileColumn, sameColumnSet, missingShare, missingCount, isNumericCol,
    numsOf, nRows, outlierFlags, svar, sqDevSum, qmean, dedupFirst,
    dedupFirstAux, overallMissingShare, outlierPenalty, tinyG1,
    List.filterMap_cons, List.all_cons, List.any_cons, List.filter_cons,
    List.flatten_cons, decide_eq_true_eq]

/-- Evaluation of the engine on the fully-present table `tinyTable`. -/
theorem tiny2_eval :
    compute_quality_flags (summarize_dataset tinyTable)
      (missing_table tinyTable) 1 (3 / 10) = Except.ok tinyG2 := by
  norm_num [compute_quality_flags, summarize_dataset, missing_table, tinyTable,
    profileColumn, sameColumnSet, missingShare, missingCount, isNumericCol,
    numsOf, nRows, outlierFlags, svar, sqDevSum, qmean, dedupFirst,
    dedupFirstAux, overallMissingShare, outlierPenalty, tinyG2,
    List.filterMap_cons, List.all_cons, List.any_cons, List.filter_cons,
    List.flatten_cons, decide_eq_true_eq]

theorem scenarioTable_length : scenarioTable.length = 8 := rfl

/-- C1, counterexample: on the §8 scenario table the engine (as fixed by the
repository test) reports `too_many_missing = true` although the overall
dataset missing share, 8/80, does not exceed the threshold 3/10 — so
`too_many_missing` is not "true iff the overall dataset missing share exceeds
`missing_share_threshold`". -/
theorem too_many_missing_scenario_counterexample :
    scenarioFlags = Except.ok scenarioQF ∧
    scenarioQF.too_many_missing = true ∧
    overallMissingShare (missing_table scenarioTable) (nRows scenarioTable)
      scenarioTable.length ≤ 3 / 10 := by
  refine ⟨scenario_flags_eq, rfl, ?_⟩
  simp only [nRows_scenario, scenarioTable_length, overallMissingShare,
    missing_table, scenarioTable, List.map_cons, List.map_nil,
    mc_age, mc_salary, mc_score, mc_height, mc_exp, mc_dept, mc_sex, mc_city,
    nRows_scenario_lit]
  norm_num

/-- C1 (amended): `compute_quality_flags` returns `too_many_missing = true`
iff some column's per-column missing share exceeds
`missing_share_threshold`; in particular it is true on the §8 scenario
table. -/
theorem too_many_missing_iff_column_exceeds :
    (∀ (t : Table) (k thr : ℚ) (g : QualityFlags),
      compute_quality_flags (summarize_dataset t) (missing_table t) k thr =
        Except.ok g →
      (g.too_many_missing = true ↔
        ∃ e ∈ missing_table t, thr < e.missing_share)) ∧
    scenarioFlags = Except.ok scenarioQF ∧
    scenarioQF.too_many_missing = true := by
  refine ⟨?_, scenario_flags_eq, rfl⟩
  intro t k thr g hg
  have he := cqf_eval t k thr
  rw [hg] at he
  simp only [Except.ok.injEq] at he
  subst he
  simp [List.any_eq_true]

/-- C1 witness: the amended characterisation instantiated on the §8 scenario
table. -/
theorem too_many_missing_iff_column_exceeds_witness :
    (compute_quality_flags (summarize_dataset scenarioTable)
      (missing_table scenarioTable) (5 / 2) (3 / 10) =
        Except.ok scenarioQF) ∧
    (scenarioQF.too_many_missing = true ↔
      ∃ e ∈ missing_table scenarioTable, 3 / 10 < e.missing_share) :=
  ⟨scenario_flags_eq,
    too_many_missing_iff_column_exceeds.1 scenarioTable (5 / 2) (3 / 10)
      scenarioQF scenario_flags_eq⟩

/-- C2: `how_many_empties` is exactly the names of the columns whose
per-column missing share exceeds the threshold, in table order; `["sex"]` on
the §8 scenario table. -/
theorem how_many_empties_exact :
    (∀ (t : Table) (k thr : ℚ) (g : QualityFlags),
      compute_quality_flags (summarize_dataset t) (missing_table t) k thr =
        Except.ok g →
      g.how_many_empties =
        (t.filter (fun p => decide (thr < missingShare t p.2))).map
          Prod.fst) ∧
    scenarioFlags = Except.ok scenarioQF ∧
    scenarioQF.how_many_empties = ["sex"] := by
  refine ⟨?_, scenario_flags_eq, rfl⟩
  intro t k thr g hg
  have he := cqf_eval t k thr
  rw [hg] at he
  simp only [Except.ok.injEq] at he
  subst he
  simp only [missing_table, List.filter_map, List.map_map]
  rfl

/-- C2 witness: the characterisation instantiated on the §8 scenario
table. -/
theorem how_many_empties_exact_witness :
    (compute_quality_flags (summarize_dataset scenarioTable)
      (missing_table scenarioTable) (5 / 2) (3 / 10) =
        Except.ok scenarioQF) ∧
    scenarioQF.how_many_empties =
      (scenarioTable.filter
        (fun p => decide ((3 : ℚ) / 10 < missingShare scenarioTable p.2))).map
        Prod.fst :=
  ⟨scenario_flags_eq,
    how_many_empties_exact.1 scenarioTable (5 / 2) (3 / 10) scenarioQF
      scenario_flags_eq⟩

end EdaCli

namespace EdaCli

/-- C9: invalid parameters are rejected with the validation error and its
message, not a computed result: mismatched column sets in
`compute_quality_flags`, and non-positive `n` in `get_head` / `get_sample`
(`api.py` lines 119-120 and 149-150). -/
theorem validation_rejections :
    (∀ (s : DatasetSummary) (miss : List MissingEntry) (k thr : ℚ),
      sameColumnSet (s.columns.map ColumnProfile.name)
        (miss.map MissingEntry.name) = false →
      compute_quality_flags s miss k thr = Except.error validationMsg) ∧
    (∀ (t : Table) (n : Int), n ≤ 0 →
      get_head t n = Except.error paramMsg) ∧
    (∀ (t : Table) (n rs : Int), n ≤ 0 →
      get_sample t n rs = Except.error paramMsg) := by
  refine ⟨?_, ?_, ?_⟩
  · intro s miss k thr h
    simp [compute_quality_flags, h]
  · intro t n h
    simp [get_head, h]
  · intro t n rs h
    simp [get_sample, h]

/-- C9 witness: a mismatched summary/missing-table pair is rejected, and so
are `get_head` and `get_sample` with non-positive `n`. -/
theorem validation_rejections_witness :
    (sameColumnSet
        ((DatasetSummary.mk 0 0 []).columns.map ColumnProfile.name)
        (([⟨"a", 0, 0⟩] : List MissingEntry).map MissingEntry.name) =
      false) ∧
    compute_quality_flags ⟨0, 0, []⟩ [⟨"a", 0, 0⟩] 1 1 =
      Except.error validationMsg ∧
    ((0 : Int) ≤ 0 ∧ get_head [] 0 = Except.error paramMsg) ∧
    ((-1 : Int) ≤ 0 ∧ get_sample [] (-1) 0 = Except.error paramMsg) :=
  ⟨by decide,
    validation_rejections.1 ⟨0, 0, []⟩ [⟨"a", 0, 0⟩] 1 1 (by decide),
    ⟨by decide, validation_rejections.2.1 [] 0 (by decide)⟩,
    ⟨by decide, validation_rejections.2.2 [] (-1) 0 (by decide)⟩⟩

/-- C10, counterexample: `get_sample` on a 2-row table with `n = 5` echoes
`requested_n = 2` (the clamped value), not the caller's original `n = 5` —
the clamp in `api.py` reassigns `n` before the response echoes it. -/
theorem sample_requested_n_counterexample :
    Except.map SampleResponse.requested_n (get_sample tinyTable 5 42) =
      Except.ok 2 ∧ (2 : Int) ≠ 5 := by
  exact ⟨rfl, by decide⟩

/-- C10 (amended): for `n > 0`, `get_sample` returns
`count = min n total_rows` rows and echoes the clamped value
`min n total_rows` — not the original `n` — as `requested_n`. -/
theorem sample_clamp_spec (t : Table) (n rs : Int) (hn : 0 < n)
    (r : SampleResponse)
    (hr : get_sample t n rs = Except.ok r) :
    r.count = (min n ((tableRows t).length : Int)).toNat ∧
    r.requested_n = min n ((tableRows t).length : Int) ∧
    r.total_rows = (tableRows t).length := by
  simp only [get_sample, sampleRows] at hr
  rw [if_neg (by omega : ¬ n ≤ 0)] at hr
  simp only [Except.ok.injEq] at hr
  subst hr
  refine ⟨?_, ?_, rfl⟩
  · simp only [List.length_take]
    split_ifs with h <;> omega
  · simp only []
    split_ifs with h <;> omega

/-- C10 witness: the clamp characterisation instantiated on the 2-row
table with `n = 5`. -/
theorem sample_clamp_spec_witness :
    (0 : Int) < 5 ∧
    get_sample tinyTable 5 42 = Except.ok tinySampleResp ∧
    (tinySampleResp.count = (min 5 ((tableRows tinyTable).length : Int)).toNat ∧
     tinySampleResp.requested_n = min 5 ((tableRows tinyTable).length : Int) ∧
     tinySampleResp.total_rows = (tableRows tinyTable).length) :=
  ⟨by decide, rfl,
    sample_clamp_spec tinyTable 5 42 (by decide) tinySampleResp rfl⟩

end EdaCli

namespace EdaCli

/-- C5: with the flagged outliers held fixed, a larger overall missing share
never yields a larger quality score. -/
theorem quality_score_monotone_in_missing
    (t1 t2 : Table) (k1 thr1 k2 thr2 : ℚ) (g1 g2 : QualityFlags)
    (h1 : compute_quality_flags (summarize_dataset t1) (missing_table t1)
      k1 thr1 = Except.ok g1)
    (h2 : compute_quality_flags (summarize_dataset t2) (missing_table t2)
      k2 thr2 = Except.ok g2)
    (houts : g1.may_have_outliers = g2.may_have_outliers)
    (hms : overallMissingShare (missing_table t2) (nRows t2) t2.length ≤
      overallMissingShare (missing_table t1) (nRows t1) t1.length) :
    g1.quality_score ≤ g2.quality_score := by
  have e1 := cqf_eval t1 k1 thr1
  rw [h1] at e1
  simp only [Except.ok.injEq] at e1
  subst e1
  have e2 := cqf_eval t2 k2 thr2
  rw [h2] at e2
  simp only [Except.ok.injEq] at e2
  subst e2
  dsimp only at houts ⊢
  rw [houts]
  linarith

/-- C5 witness: the monotonicity instantiated on the one-missing-value and
no-missing-value two-row tables. -/
theorem quality_score_monotone_in_missing_witness :
    (compute_quality_flags (summarize_dataset tinyT1) (missing_table tinyT1)
      1 (3 / 10) = Except.ok tinyG1) ∧
    (compute_quality_flags (summarize_dataset tinyTable)
      (missing_table tinyTable) 1 (3 / 10) = Except.ok tinyG2) ∧
    tinyG1.may_have_outliers = tinyG2.may_have_outliers ∧
    overallMissingShare (missing_table tinyTable) (nRows tinyTable)
      tinyTable.length ≤
      overallMissingShare (missing_table tinyT1) (nRows tinyT1)
        tinyT1.length ∧
    tinyG1.quality_score ≤ tinyG2.quality_score := by
  have hms : overallMissingShare (missing_table tinyTable) (nRows tinyTable)
      tinyTable.length ≤
      overallMissingShare (missing_table tinyT1) (nRows tinyT1)
        tinyT1.length := by
    norm_num [overallMissingShare, missing_table, tinyT1, tinyTable,
      missingShare, missingCount, nRows]
  exact ⟨tiny1_eval, tiny2_eval, rfl, hms,
    quality_score_monotone_in_missing tinyT1 tinyTable 1 (3 / 10) 1 (3 / 10)
      tinyG1 tinyG2 tiny1_eval tiny2_eval rfl hms⟩

/-- C6: `summarize_dataset` is a pure function whose result has
`n_rows` = the (common) column length, `n_cols` = the number of columns, and
exactly one profile per column, in the table's original order. -/
theorem summarize_dataset_spec (t : Table) (ht : Wf t) :
    (∀ p ∈ t, (summarize_dataset t).n_rows = p.2.length) ∧
    (summarize_dataset t).n_cols = t.length ∧
    (summarize_dataset t).columns.length = t.length ∧
    (summarize_dataset t).columns =
      t.map (fun p => profileColumn p.1 p.2) ∧
    (summarize_dataset t).columns.map ColumnProfile.name =
      t.map Prod.fst := by
  refine ⟨?_, rfl, by simp [summarize_dataset], rfl, summarize_names t⟩
  intro p hp
  have h := ht.1 p hp
  simp [summarize_dataset, h]

/-- C6 witness: the summary shape on the two-row table. -/
theorem summarize_dataset_spec_witness :
    Wf tinyTable ∧
    ((∀ p ∈ tinyTable, (summarize_dataset tinyTable).n_rows = p.2.length) ∧
      (summarize_dataset tinyTable).n_cols = tinyTable.length ∧
      (summarize_dataset tinyTable).columns.length = tinyTable.length ∧
      (summarize_dataset tinyTable).columns =
        tinyTable.map (fun p => profileColumn p.1 p.2) ∧
      (summarize_dataset tinyTable).columns.map ColumnProfile.name =
        tinyTable.map Prod.fst) :=
  ⟨⟨by decide, by decide⟩,
    summarize_dataset_spec tinyTable ⟨by decide, by decide⟩⟩

/-- Splitting a column's length into its missing and present parts. -/
theorem length_filter_isNone_add (l : Column) :
    (l.filter (fun c => c.isNone)).length +
      (l.filter (fun c => c.isSome)).length = l.length := by
  induction l with
  | nil => rfl
  | cons c cs ih => cases c <;> simp [List.filter_cons] <;> omega

end EdaCli

namespace EdaCli

/-- C7: `missing_table` reports, for every column, `missing_count` = the
number of missing entries (so that `missing_count + count = length`) and
`missing_share = missing_count / n_rows`, defined as 0 when `n_rows = 0`;
a fully missing column of a table with rows has share 1 and a fully present
column has share 0. -/
theorem missing_table_spec (t : Table) (ht : Wf t) :
    ∀ p ∈ t, ∃ e ∈ missing_table t,
      e.name = p.1 ∧
      e.missing_count = missingCount p.2 ∧
      missingCount p.2 + (profileColumn p.1 p.2).count = p.2.length ∧
      e.missing_share =
        (if nRows t = 0 then 0 else (e.missing_count : ℚ) / (nRows t : ℚ)) ∧
      ((∀ c ∈ p.2, c = none) → 0 < nRows t → e.missing_share = 1) ∧
      ((∀ c ∈ p.2, c ≠ none) → e.missing_share = 0) := by
  intro p hp
  refine ⟨⟨p.1, missingCount p.2, missingShare t p.2⟩,
    List.mem_map_of_mem _ hp, rfl, rfl, ?_, rfl, ?_, ?_⟩
  · have h := length_filter_isNone_add p.2
    simpa [profileColumn, missingCount] using h
  · intro hall hpos
    have hmc : missingCount p.2 = p.2.length := by
      unfold missingCount
      rw [List.filter_eq_self.2]
      intro a ha
      simp [hall a ha]
    have hlen := ht.1 p hp
    have hnz : ((nRows t : ℚ)) ≠ 0 := by
      exact_mod_cast Nat.pos_iff_ne_zero.1 hpos
    rw [missingShare, if_neg (Nat.pos_iff_ne_zero.1 hpos), hmc, hlen,
      div_self hnz]
  · intro hnone
    have hmc : missingCount p.2 = 0 := by
      unfold missingCount
      rw [List.filter_eq_nil_iff.2, List.length_nil]
      intro a ha
      have h2 := hnone a ha
      cases a with
      | none => exact absurd rfl h2
      | some v => simp
    simp [missingShare, hmc]

/-- C7 witness: the missing-table report for the one-missing-value
column. -/
theorem missing_table_spec_witness :
    Wf tinyT1 ∧
    (∃ e ∈ missing_table tinyT1,
      e.name = "a" ∧
      e.missing_count = missingCount [none, some (Value.num 1)] ∧
      missingCount [none, some (Value.num 1)] +
        (profileColumn "a" [none, some (Value.num 1)]).count =
        ([none, some (Value.num 1)] : Column).length ∧
      e.missing_share =
        (if nRows tinyT1 = 0 then 0
         else (e.missing_count : ℚ) / (nRows tinyT1 : ℚ)) ∧
      ((∀ c ∈ ([none, some (Value.num 1)] : Column), c = none) →
        0 < nRows tinyT1 → e.missing_share = 1) ∧
      ((∀ c ∈ ([none, some (Value.num 1)] : Column), c ≠ none) →
        e.missing_share = 0)) :=
  ⟨⟨by decide, by decide⟩,
    missing_table_spec tinyT1 ⟨by decide, by decide⟩
      ("a", [none, some (Value.num 1)]) (by simp [tinyT1])⟩

end EdaCli

namespace EdaCli

theorem total_missing_le (t : Table) (ht : Wf t) :
    ((missing_table t).map MissingEntry.missing_count).sum ≤
      t.length * nRows t := by
  have hmap : (missing_table t).map MissingEntry.missing_count =
      t.map (fun p => missingCount p.2) := by
    simp only [missing_table, List.map_map]
    rfl
  rw [hmap]
  have h := List.sum_le_card_nsmul (t.map (fun p => missingCount p.2))
    (nRows t) ?_
  · simpa [smul_eq_mul] using h
  · intro x hx
    obtain ⟨p, hp, rfl⟩ := List.mem_map.1 hx
    calc missingCount p.2 ≤ p.2.length := List.length_filter_le _ _
    _ = nRows t := ht.1 p hp

theorem oms_nonneg (miss : List MissingEntry) (r c : Nat) :
    0 ≤ overallMissingShare miss r c := by
  unfold overallMissingShare
  split_ifs
  · exact le_refl 0
  · exact div_nonneg (by positivity) (by positivity)

theorem oms_le_one (t : Table) (ht : Wf t) :
    overallMissingShare (missing_table t) (nRows t) t.length ≤ 1 := by
  unfold overallMissingShare
  split_ifs with h
  · norm_num
  · rw [div_le_one (by exact_mod_cast Nat.pos_of_ne_zero h)]
    exact_mod_cast le_of_le_of_eq (total_missing_le t ht)
      (Nat.mul_comm t.length (nRows t))

theorem pen_nonneg (f : Nat) : 0 ≤ outlierPenalty f := by
  unfold outlierPenalty
  positivity

theorem pen_lt_one (f : Nat) : outlierPenalty f < 1 := by
  unfold outlierPenalty
  rw [div_lt_one (by positivity)]
  linarith [show (0 : ℚ) ≤ (f : ℚ) from Nat.cast_nonneg f]

theorem pen_eq_zero_iff (f : Nat) : outlierPenalty f = 0 ↔ f = 0 := by
  unfold outlierPenalty
  rw [div_eq_zero_iff]
  constructor
  · rintro (h | h)
    · exact_mod_cast h
    · exfalso
      have h2 : (0 : ℚ) ≤ (f : ℚ) := Nat.cast_nonneg f
      linarith
  · rintro rfl
    norm_num

/-- C4: the quality score lies in [0,1] and equals 1 exactly when the
overall missing share is 0 and no outliers are flagged. -/
theorem quality_score_range_and_one_iff (t : Table) (k thr : ℚ) (ht : Wf t)
    (g : QualityFlags)
    (hg : compute_quality_flags (summarize_dataset t) (missing_table t) k thr =
      Except.ok g) :
    (0 ≤ g.quality_score ∧ g.quality_score ≤ 1) ∧
    (g.quality_score = 1 ↔
      (overallMissingShare (missing_table t) (nRows t) t.length = 0 ∧
        g.may_have_outliers = [])) := by
  have he := cqf_eval t k thr
  rw [hg] at he
  simp only [Except.ok.injEq] at he
  subst he
  dsimp only
  have h1 : 0 ≤ overallMissingShare (missing_table t) (nRows t) t.length :=
    oms_nonneg _ _ _
  have h2 : overallMissingShare (missing_table t) (nRows t) t.length ≤ 1 :=
    oms_le_one t ht
  have h3 : 0 ≤ outlierPenalty (tableOutliers t k).length := pen_nonneg _
  have h4 : outlierPenalty (tableOutliers t k).length < 1 := pen_lt_one _
  refine ⟨⟨by linarith, by linarith⟩, ?_, ?_⟩
  · intro h5
    have h7 : overallMissingShare (missing_table t) (nRows t) t.length = 0 :=
      by linarith
    have h8 : outlierPenalty (tableOutliers t k).length = 0 := by linarith
    exact ⟨h7, List.length_eq_zero.1 ((pen_eq_zero_iff _).1 h8)⟩
  · rintro ⟨h5, h6⟩
    have h7 : (tableOutliers t k).length = 0 := by rw [h6]; rfl
    have h8 : outlierPenalty (tableOutliers t k).length = 0 := by
      rw [h7]
      norm_num [outlierPenalty]
    rw [h5, h8]
    norm_num

/-- C4 witness: the range and the characterisation of score 1 on the
no-missing-value table. -/
theorem quality_score_range_and_one_iff_witness :
    Wf tinyTable ∧
    (compute_quality_flags (summarize_dataset tinyTable)
      (missing_table tinyTable) 1 (3 / 10) = Except.ok tinyG2) ∧
    ((0 ≤ tinyG2.quality_score ∧ tinyG2.quality_score ≤ 1) ∧
      (tinyG2.quality_score = 1 ↔
        (overallMissingShare (missing_table tinyTable) (nRows tinyTable)
          tinyTable.length = 0 ∧
          tinyG2.may_have_outliers = []))) :=
  ⟨⟨by decide, by decide⟩, tiny2_eval,
    quality_score_range_and_one_iff tinyTable 1 (3 / 10)
      ⟨by decide, by decide⟩ tinyG2 tiny2_eval⟩

end EdaCli

namespace EdaCli

theorem sqDevSum_nonneg (xs : List ℚ) : 0 ≤ sqDevSum xs := by
  unfold sqDevSum
  apply List.sum_nonneg
  intro x hx
  obtain ⟨a, _, rfl⟩ := List.mem_map.1 hx
  positivity

theorem svar_nonneg (xs : List ℚ) : 0 ≤ svar xs := by
  unfold svar
  split_ifs with h
  · exact le_refl 0
  · have h2 : (2 : ℚ) ≤ (xs.length : ℚ) := by
      have : 2 ≤ xs.length := by omega
      exact_mod_cast this
    exact div_nonneg (sqDevSum_nonneg xs) (by linarith)

/-- The executable squared comparison agrees with the spec's
`v > mean + k*std` on columns with positive variance, for `k ≥ 0`. -/
theorem big_iff (xs : List ℚ) (k v : ℚ) (hk : 0 ≤ k) (hv : 0 < svar xs) :
    (qmean xs < v ∧ k ^ 2 * svar xs < (v - qmean xs) ^ 2) ↔
      ((qmean xs : ℝ) + (k : ℝ) * Real.sqrt ((svar xs : ℝ)) < (v : ℝ)) := by
  have hs : (0 : ℝ) < ((svar xs : ℝ)) := by exact_mod_cast hv
  have hs0 : 0 ≤ Real.sqrt ((svar xs : ℝ)) := Real.sqrt_nonneg _
  have hs2 : Real.sqrt ((svar xs : ℝ)) ^ 2 = ((svar xs : ℝ)) :=
    Real.sq_sqrt hs.le
  have hkR : (0 : ℝ) ≤ (k : ℝ) := by exact_mod_cast hk
  constructor
  · rintro ⟨h1, h2⟩
    have h1R : ((qmean xs : ℝ)) < (v : ℝ) := by exact_mod_cast h1
    have h2R : (k : ℝ) ^ 2 * ((svar xs : ℝ)) <
        ((v : ℝ) - (qmean xs : ℝ)) ^ 2 := by exact_mod_cast h2
    have h3 : ((k : ℝ) * Real.sqrt ((svar xs : ℝ))) ^ 2 <
        ((v : ℝ) - (qmean xs : ℝ)) ^ 2 := by
      rw [mul_pow, hs2]
      exact h2R
    have h4 : (k : ℝ) * Real.sqrt ((svar xs : ℝ)) <
        (v : ℝ) - (qmean xs : ℝ) :=
      lt_of_pow_lt_pow_left₀ 2 (by linarith) h3
    linarith
  · intro h
    have hks : 0 ≤ (k : ℝ) * Real.sqrt ((svar xs : ℝ)) :=
      mul_nonneg hkR hs0
    have h1R : ((qmean xs : ℝ)) < (v : ℝ) := by linarith
    have h4 : (k : ℝ) * Real.sqrt ((svar xs : ℝ)) <
        (v : ℝ) - (qmean xs : ℝ) := by linarith
    have h3 : ((k : ℝ) * Real.sqrt ((svar xs : ℝ))) ^ 2 <
        ((v : ℝ) - (qmean xs : ℝ)) ^ 2 := pow_lt_pow_left₀ h4 hks (by norm_num)
    rw [mul_pow, hs2] at h3
    constructor
    · exact_mod_cast h1R
    · exact_mod_cast h3

/-- The executable squared comparison agrees with the spec's
`v < mean - k*std` on columns with positive variance, for `k ≥ 0`. -/
theorem small_iff (xs : List ℚ) (k v : ℚ) (hk : 0 ≤ k) (hv : 0 < svar xs) :
    (v < qmean xs ∧ k ^ 2 * svar xs < (qmean xs - v) ^ 2) ↔
      ((v : ℝ) < (qmean xs : ℝ) - (k : ℝ) * Real.sqrt ((svar xs : ℝ))) := by
  have hs : (0 : ℝ) < ((svar xs : ℝ)) := by exact_mod_cast hv
  have hs0 : 0 ≤ Real.sqrt ((svar xs : ℝ)) := Real.sqrt_nonneg _
  have hs2 : Real.sqrt ((svar xs : ℝ)) ^ 2 = ((svar xs : ℝ)) :=
    Real.sq_sqrt hs.le
  have hkR : (0 : ℝ) ≤ (k : ℝ) := by exact_mod_cast hk
  constructor
  · rintro ⟨h1, h2⟩
    have h1R : (v : ℝ) < ((qmean xs : ℝ)) := by exact_mod_cast h1
    have h2R : (k : ℝ) ^ 2 * ((svar xs : ℝ)) <
        ((qmean xs : ℝ) - (v : ℝ)) ^ 2 := by exact_mod_cast h2
    have h3 : ((k : ℝ) * Real.sqrt ((svar xs : ℝ))) ^ 2 <
        ((qmean xs : ℝ) - (v : ℝ)) ^ 2 := by
      rw [mul_pow, hs2]
      exact h2R
    have h4 : (k : ℝ) * Real.sqrt ((svar xs : ℝ)) <
        (qmean xs : ℝ) - (v : ℝ) :=
      lt_of_pow_lt_pow_left₀ 2 (by linarith) h3
    linarith
  · intro h
    have hks : 0 ≤ (k : ℝ) * Real.sqrt ((svar xs : ℝ)) :=
      mul_nonneg hkR hs0
    have h1R : (v : ℝ) < ((qmean xs : ℝ)) := by linarith
    have h4 : (k : ℝ) * Real.sqrt ((svar xs : ℝ)) <
        (qmean xs : ℝ) - (v : ℝ) := by linarith
    have h3 : ((k : ℝ) * Real.sqrt ((svar xs : ℝ))) ^ 2 <
        ((qmean xs : ℝ) - (v : ℝ)) ^ 2 := pow_lt_pow_left₀ h4 hks (by norm_num)
    rw [mul_pow, hs2] at h3
    constructor
    · exact_mod_cast h1R
    · exact_mod_cast h3

end EdaCli

namespace EdaCli

theorem mem_outlierFlags_toobig (name : String) (xs : List ℚ) (k v : ℚ) :
    ((name, v, "toobig") ∈ outlierFlags name xs k) ↔
      (0 < svar xs ∧ v ∈ xs ∧
        qmean xs < v ∧ k ^ 2 * svar xs < (v - qmean xs) ^ 2) := by
  unfold outlierFlags
  split_ifs with hv
  · simp only [List.mem_filterMap]
    constructor
    · rintro ⟨a, ha, hfa⟩
      split_ifs at hfa with c1 c2
      · simp only [Option.some.injEq, Prod.mk.injEq] at hfa
        obtain ⟨-, h2, -⟩ := hfa
        subst h2
        exact ⟨hv, mem_dedupFirst.1 ha, c1⟩
      · simp only [Option.some.injEq, Prod.mk.injEq] at hfa
        exact absurd hfa.2.2 (by decide)
    · rintro ⟨-, hmem, hcond⟩
      exact ⟨v, mem_dedupFirst.2 hmem, by rw [if_pos hcond]⟩
  · simp only [List.not_mem_nil, false_iff]
    rintro ⟨hv2, -⟩
    exact hv hv2

theorem mem_outlierFlags_toosmall (name : String) (xs : List ℚ) (k v : ℚ) :
    ((name, v, "toosmall") ∈ outlierFlags name xs k) ↔
      (0 < svar xs ∧ v ∈ xs ∧
        v < qmean xs ∧ k ^ 2 * svar xs < (qmean xs - v) ^ 2) := by
  unfold outlierFlags
  split_ifs with hv
  · simp only [List.mem_filterMap]
    constructor
    · rintro ⟨a, ha, hfa⟩
      split_ifs at hfa with c1 c2
      · simp only [Option.some.injEq, Prod.mk.injEq] at hfa
        exact absurd hfa.2.2 (by decide)
      · simp only [Option.some.injEq, Prod.mk.injEq] at hfa
        obtain ⟨-, h2, -⟩ := hfa
        subst h2
        exact ⟨hv, mem_dedupFirst.1 ha, c2⟩
    · rintro ⟨-, hmem, hcond⟩
      refine ⟨v, mem_dedupFirst.2 hmem, ?_⟩
      have hnot : ¬ (qmean xs < v ∧ k ^ 2 * svar xs < (v - qmean xs) ^ 2) := by
        rintro ⟨h1, -⟩
        exact absurd (lt_trans hcond.1 h1) (lt_irrefl v)
      rw [if_neg hnot, if_pos hcond]
  · simp only [List.not_mem_nil, false_iff]
    rintro ⟨hv2, -⟩
    exact hv hv2

theorem values_nodup_filterMap (f : ℚ → Option (String × ℚ × String))
    (hf : ∀ v z, f v = some z → z.2.1 = v) :
    ∀ l : List ℚ, l.Nodup →
      ((l.filterMap f).map (fun z => z.2.1)).Nodup := by
  intro l
  induction l with
  | nil => intro _; simp
  | cons x xs ih =>
      intro hnd
      rw [List.filterMap_cons]
      rcases hx : f x with - | z
      · exact ih (List.nodup_cons.1 hnd).2
      · rw [List.map_cons]
        refine List.nodup_cons.2 ⟨?_, ih (List.nodup_cons.1 hnd).2⟩
        intro hmem
        obtain ⟨w, hw, hww⟩ := List.mem_map.1 hmem
        obtain ⟨a, ha, hfa⟩ := List.mem_filterMap.1 hw
        have h1 := hf a w hfa
        have h2 := hf x z hx
        rw [h1] at hww
        rw [h2] at hww
        subst hww
        exact (List.nodup_cons.1 hnd).1 ha

end EdaCli

namespace EdaCli

/-- C3: on a column with positive (sample) variance and `k ≥ 0`, a value is
flagged "toobig" exactly when it exceeds `mean + k*std` and "toosmall"
exactly when it is below `mean - k*std`; zero-variance columns produce no
flags; each distinct offending value appears once; and the §8 scenario flags
exactly `("score", 200, "toobig")`. -/
theorem outlier_flags_spec :
    (∀ (name : String) (xs : List ℚ) (k v : ℚ), 0 ≤ k → 0 < svar xs →
      (((name, v, "toobig") ∈ outlierFlags name xs k) ↔
        (v ∈ xs ∧
          (qmean xs : ℝ) + (k : ℝ) * Real.sqrt ((svar xs : ℝ)) < (v : ℝ))) ∧
      (((name, v, "toosmall") ∈ outlierFlags name xs k) ↔
        (v ∈ xs ∧
          (v : ℝ) < (qmean xs : ℝ) - (k : ℝ) * Real.sqrt ((svar xs : ℝ))))) ∧
    (∀ (name : String) (xs : List ℚ) (k : ℚ), ¬ 0 < svar xs →
      outlierFlags name xs k = []) ∧
    (∀ (name : String) (xs : List ℚ) (k : ℚ),
      ((outlierFlags name xs k).map (fun z => z.2.1)).Nodup) ∧
    (scenarioFlags = Except.ok scenarioQF ∧
      ("score", (200 : ℚ), "toobig") ∈ scenarioQF.may_have_outliers) := by
  refine ⟨?_, ?_, ?_, scenario_flags_eq, by simp [scenarioQF]⟩
  · intro name xs k v hk hv
    constructor
    · rw [mem_outlierFlags_toobig]
      constructor
      · rintro ⟨-, hmem, hcond⟩
        exact ⟨hmem, (big_iff xs k v hk hv).1 hcond⟩
      · rintro ⟨hmem, hreal⟩
        exact ⟨hv, hmem, (big_iff xs k v hk hv).2 hreal⟩
    · rw [mem_outlierFlags_toosmall]
      constructor
      · rintro ⟨-, hmem, hcond⟩
        exact ⟨hmem, (small_iff xs k v hk hv).1 hcond⟩
      · rintro ⟨hmem, hreal⟩
        exact ⟨hv, hmem, (small_iff xs k v hk hv).2 hreal⟩
  · intro name xs k hv
    unfold outlierFlags
    rw [if_neg hv]
  · intro name xs k
    unfold outlierFlags
    split_ifs with hv
    · apply values_nodup_filterMap
      · intro v z hz
        split_ifs at hz <;>
          (simp only [Option.some.injEq] at hz; rw [← hz])
      · exact nodup_dedupFirst xs
    · simp

/-- C3 witness: the "toobig" characterisation instantiated on the scenario's
`score` column at value 200 with `k = 5/2`. -/
theorem outlier_flags_spec_witness :
    (0 : ℚ) ≤ 5 / 2 ∧ 0 < svar scoreValsQ ∧
    ((("score", (200 : ℚ), "toobig") ∈
        outlierFlags "score" scoreValsQ (5 / 2)) ↔
      ((200 : ℚ) ∈ scoreValsQ ∧
        (qmean scoreValsQ : ℝ) +
          ((5 / 2 : ℚ) : ℝ) * Real.sqrt ((svar scoreValsQ : ℝ)) <
          (((200 : ℚ)) : ℝ))) :=
  ⟨by norm_num, by rw [svar_score]; norm_num,
    (outlier_flags_spec.1 "score" scoreValsQ (5 / 2) 200 (by norm_num)
      (by rw [svar_score]; norm_num)).1⟩

end EdaCli

namespace EdaCli

theorem zip_self {α : Type} (l : List α) :
    l.zip l = l.map (fun a => (a, a)) := by
  induction l with
  | nil => rfl
  | cons x xs ih => simp [List.zip_cons_cons, ih]

theorem map_fst_swap (ps : List (ℚ × ℚ)) :
    (ps.map Prod.swap).map Prod.fst = ps.map Prod.snd := by
  rw [List.map_map]
  rfl

theorem map_snd_swap (ps : List (ℚ × ℚ)) :
    (ps.map Prod.swap).map Prod.snd = ps.map Prod.fst := by
  rw [List.map_map]
  rfl

theorem pairedNums_swap (c1 c2 : Column) :
    pairedNums c2 c1 = (pairedNums c1 c2).map Prod.swap := by
  unfold pairedNums
  rw [← List.zip_swap c1 c2, List.filterMap_map, List.map_filterMap]
  congr 1
  funext p
  rcases p with ⟨x, y⟩
  rcases x with - | (q | s) <;> rcases y with - | (r | w) <;> rfl

theorem covSum_swap (ps : List (ℚ × ℚ)) :
    covSum (ps.map Prod.swap) = covSum ps := by
  unfold covSum
  rw [map_fst_swap, map_snd_swap, List.map_map]
  congr 1
  apply List.map_congr_left
  intro p hp
  simp only [Function.comp_apply, Prod.fst_swap, Prod.snd_swap]
  ring

theorem pearson_comm (c1 c2 : Column) : pearson c1 c2 = pearson c2 c1 := by
  unfold pearson
  rw [pairedNums_swap c1 c2, covSum_swap, map_fst_swap, map_snd_swap,
    mul_comm ((sqDevSum ((pairedNums c1 c2).map Prod.fst) : ℚ) : ℝ)]

theorem pairedNums_self (c : Column) :
    pairedNums c c = (numsOf c).map (fun a => (a, a)) := by
  unfold pairedNums numsOf
  rw [zip_self, List.filterMap_map, List.map_filterMap]
  congr 1
  funext cell
  rcases cell with - | (q | s) <;> rfl

theorem pearson_self (c : Column) (h : svar (numsOf c) ≠ 0) :
    pearson c c = 1 := by
  have hxs : 0 < sqDevSum (numsOf c) := by
    unfold svar at h
    split_ifs at h with hl
    · exact absurd rfl h
    · have hne : sqDevSum (numsOf c) ≠ 0 := by
        intro h0
        rw [h0, zero_div] at h
        exact h rfl
      exact lt_of_le_of_ne (sqDevSum_nonneg _) (Ne.symm hne)
  have hfst : ((numsOf c).map (fun a => (a, a))).map Prod.fst = numsOf c := by
    rw [List.map_map]
    exact List.map_id _
  have hsnd : ((numsOf c).map (fun a => (a, a))).map Prod.snd = numsOf c := by
    rw [List.map_map]
    exact List.map_id _
  have hcov : covSum ((numsOf c).map (fun a => (a, a))) =
      sqDevSum (numsOf c) := by
    unfold covSum sqDevSum
    rw [hfst, hsnd, List.map_map]
    congr 1
    apply List.map_congr_left
    intro a ha
    simp only [Function.comp]
    ring
  unfold pearson
  rw [pairedNums_self, hfst, hsnd, hcov]
  have hS : (0 : ℝ) < ((sqDevSum (numsOf c) : ℚ) : ℝ) := by exact_mod_cast hxs
  rw [Real.sqrt_mul_self hS.le]
  exact div_self (ne_of_gt hS)

theorem alookup_map {γ β : Type} (l : List γ) (key : γ → String) (f : γ → β)
    (c : String) :
    alookup c (l.map (fun a => (key a, f a))) =
      Option.map f (l.find? (fun a => decide (key a = c))) := by
  induction l with
  | nil => rfl
  | cons a xs ih =>
      rw [List.map_cons]
      by_cases h : key a = c
      · rw [List.find?_cons_of_pos _ (by simpa using h)]
        simp only [alookup, if_pos h]
        rfl
      · rw [List.find?_cons_of_neg _ (by simpa using h)]
        simp only [alookup, if_neg h]
        exact ih

theorem findEntry_eq (l : List (String × Column))
    (hnd : (l.map Prod.fst).Nodup) (c : String) (col : Column)
    (hmem : (c, col) ∈ l) :
    l.find? (fun a => decide (a.1 = c)) = some (c, col) := by
  induction l with
  | nil => cases hmem
  | cons a xs ih =>
      rcases List.mem_cons.1 hmem with rfl | h
      · exact List.find?_cons_of_pos _ (by simp)
      · by_cases ha : a.1 = c
        · exfalso
          have hc : c ∈ xs.map Prod.fst := List.mem_map.2 ⟨(c, col), h, rfl⟩
          rw [List.map_cons] at hnd
          exact (List.nodup_cons.1 hnd).1 (ha ▸ hc)
        · rw [List.find?_cons_of_neg _ (by simpa using ha)]
          rw [List.map_cons] at hnd
          exact ih (List.nodup_cons.1 hnd).2 h

theorem numericCols_names_nodup (t : Table) (ht : Wf t) :
    ((numericCols t).map Prod.fst).Nodup := by
  exact ht.2.sublist ((List.filter_sublist t).map Prod.fst)

end EdaCli

namespace EdaCli

/-- C8: the correlation matrix is symmetric; its diagonal entry is 1 for
every numeric column with nonzero variance (when the matrix is non-empty,
i.e. at least two numeric columns exist); and it is the empty matrix when
fewer than two numeric columns exist. -/
theorem correlation_matrix_spec (t : Table) :
    (∀ i j, corrEntry (correlation_matrix t) i j =
      corrEntry (correlation_matrix t) j i) ∧
    (∀ (c : String) (col : Column), Wf t → (c, col) ∈ numericCols t →
      svar (numsOf col) ≠ 0 → 2 ≤ (numericCols t).length →
      corrEntry (correlation_matrix t) c c = some 1) ∧
    ((numericCols t).length < 2 → correlation_matrix t = []) := by
  have htop : ∀ s : String,
      alookup s ((numericCols t).map (fun a =>
        (a.1, (numericCols t).map (fun b => (b.1, pearson a.2 b.2))))) =
      Option.map
        (fun a => (numericCols t).map (fun b => (b.1, pearson a.2 b.2)))
        ((numericCols t).find? (fun a => decide (a.1 = s))) :=
    fun s => alookup_map (numericCols t) (fun a => a.1) _ s
  have hinn : ∀ (cc : Column) (s : String),
      alookup s ((numericCols t).map (fun b => (b.1, pearson cc b.2))) =
      Option.map (fun b => pearson cc b.2)
        ((numericCols t).find? (fun b => decide (b.1 = s))) :=
    fun cc s => alookup_map (numericCols t) (fun b => b.1) _ s
  refine ⟨?_, ?_, ?_⟩
  · intro i j
    unfold correlation_matrix
    by_cases hle : (numericCols t).length < 2
    · rw [if_pos hle]
      rfl
    · rw [if_neg hle]
      rcases h1 : (numericCols t).find? (fun a => decide (a.1 = i)) with - | a <;>
        rcases h2 : (numericCols t).find? (fun a => decide (a.1 = j)) with - | b <;>
        simp [corrEntry, htop, hinn, h1, h2, pearson_comm]
  · intro c col ht hmem hv hlen
    unfold correlation_matrix
    rw [if_neg (by omega : ¬ (numericCols t).length < 2)]
    have hf : (numericCols t).find? (fun a => decide (a.1 = c)) =
        some (c, col) :=
      findEntry_eq _ (numericCols_names_nodup t ht) c col hmem
    simp [corrEntry, htop, hinn, hf, pearson_self col hv]
  · intro h
    unfold correlation_matrix
    rw [if_pos h]

/-- C8 witness: the diagonal entry of the `a`-column of a concrete two-column
numeric table. -/
theorem correlation_matrix_spec_witness :
    Wf corrT ∧ ("a", natCol [0, 1, 2]) ∈ numericCols corrT ∧
    svar (numsOf (natCol [0, 1, 2])) ≠ 0 ∧
    2 ≤ (numericCols corrT).length ∧
    corrEntry (correlation_matrix corrT) "a" "a" = some 1 := by
  have hwf : Wf corrT := ⟨by decide, by decide⟩
  have hmem : ("a", natCol [0, 1, 2]) ∈ numericCols corrT := by
    rw [show numericCols corrT = corrT from rfl]
    exact List.mem_cons_self _ _
  have hsvar : svar (numsOf (natCol [0, 1, 2])) ≠ 0 := by
    rw [show numsOf (natCol [0, 1, 2]) = [0, 1, 2] from rfl]
    norm_num [svar, sqDevSum, qmean]
  have hlen : 2 ≤ (numericCols corrT).length := by decide
  exact ⟨hwf, hmem, hsvar, hlen,
    (correlation_matrix_spec corrT).2.1 "a" (natCol [0, 1, 2]) hwf hmem
      hsvar hlen⟩

end EdaCli
